import Mathlib

/-!
Shallow embedding of the ProveIt SCTT kernel, proof-graph layer and proof
state, together with theorems settling the specification claims.

The Rust sources embedded here are:
- crates/sctt-core/src/syntax.rs  (Dim, Face, Expr)
- crates/sctt-core/src/value.rs   (Value, Neutral, Closure, conv, apply)
- crates/sctt-core/src/kan.rs     (comp, coe, hcomp, face_satisfied)
- crates/sctt-core/src/eval.rs    (eval_with_dims, resolve_dim)
- crates/sctt-core/src/check.rs   (Context, infer, check)
- crates/geometry/src/construction.rs (ConstructionGraph)
- crates/geometry/src/line.rs     (Line, ProofPath)
- crates/proof-engine/src/goals.rs (ProofState)

Modelling conventions: u32/u64 become Nat (the programs never approach the
wrap boundary on the inputs considered); `Name` is its underlying String;
`Arc<T>` is T; `im::Vector`/`Vec` are Lists with `push_back` as append;
`HashMap<K,V>` is `K → Option V` (updates are pointwise); `HashSet` is a
List with membership; Rust panics and fuel exhaustion of the embedding are
explicit error values.  Error payloads that Rust renders with `format!`
into Strings are modelled as the data being formatted (the claims never
inspect the rendered text).  Recursive Rust functions whose termination is
not structural take an explicit fuel argument.
-/

namespace ProveIt

/-- syntax.rs: universe levels (u32). -/
abbrev Level := Nat

/-- syntax.rs: `Name(pub String)`. -/
abbrev Name := String

/-- syntax.rs: `DimVar(pub u32)`. -/
abbrev DimVar := Nat

/-- syntax.rs: dimension expressions. -/
inductive Dim where
  | var (v : DimVar)
  | zero
  | one
  deriving Repr, DecidableEq

/-- syntax.rs: face formulas (cofibrations). -/
inductive Face where
  | eq (v : DimVar) (b : Bool)
  | and (f1 f2 : Face)
  | tr
  deriving Repr, DecidableEq

/-- syntax.rs: the expression AST. -/
inductive Expr where
  | type (level : Level)
  | var (name : Name) (idx : Nat)
  | pi (name : Name) (domain codomain : Expr)
  | lam (name : Name) (body : Expr)
  | app (func arg : Expr)
  | path (ty left right : Expr)
  | pathLam (dim : DimVar) (body : Expr)
  | pathApp (p : Expr) (dim : Dim)
  | smoothPath (order : Nat) (ty left right : Expr)
  | comp (ty base : Expr) (faces : List (Face × Expr))
  | coe (tyFam : Expr) (dfrom dto : Dim) (base : Expr)
  | hcomp (ty base : Expr) (faces : List (Face × Expr))
  | glue (base : Expr) (equivalences : List (Face × Expr × Expr))
  | diff (order : Nat) (dim : DimVar) (e : Expr)
  | integral (dim : DimVar) (dfrom dto : Dim) (e : Expr)
  | taylor (order : Nat) (point : Expr) (e : Expr)
  deriving Repr

mutual
/-- value.rs: semantic values.  Closures are inlined as their captured
environment(s) plus unevaluated body. -/
inductive Value where
  | vType (level : Level)
  | vPi (name : Name) (domain : Value) (cloEnv : List Value) (cloBody : Expr)
  | vLam (name : Name) (cloEnv : List Value) (cloBody : Expr)
  | vPath (ty left right : Value)
  | vPathLam (dim : DimVar) (cloEnv : List Value) (cloDimEnv : List Dim)
      (cloBody : Expr)
  | vSmoothPath (order : Nat) (ty left right : Value)
  | vNeutral (ty : Value) (neutral : Neutral)
  deriving Repr

/-- value.rs: neutral spines. -/
inductive Neutral where
  | nVar (name : Name) (idx : Nat)
  | nApp (func : Neutral) (arg : Value)
  | nPathApp (p : Neutral) (dim : Dim)
  | nComp (ty : Value) (base : Neutral)
  | nCoe (tyFam : Value) (dfrom dto : Dim) (base : Neutral)
  deriving Repr
end

/-- value.rs: term environments (`im::Vector<Value>`, indexed from the
front, `push_back` appends). -/
abbrev Env := List Value

/-- value.rs: dimension environments. -/
abbrev DimEnv := List Dim

mutual
/-- value.rs `Value::conv`: definitional equality test.  Note the
wildcard arm returns false, so `conv` is not reflexive on `VLam`,
`VPathLam`, `VSmoothPath`, or neutrals with `NComp`/`NCoe` spines. -/
def Value.conv : Value → Value → Bool
  | .vType l1, .vType l2 => l1 == l2
  | .vPi _ d1 _ _, .vPi _ d2 _ _ => d1.conv d2
  | .vPath t1 l1 r1, .vPath t2 l2 r2 =>
      t1.conv t2 && l1.conv l2 && r1.conv r2
  | .vNeutral _ n1, .vNeutral _ n2 => n1.convNeutral n2
  | _, _ => false

/-- value.rs `Neutral::conv_neutral`. -/
def Neutral.convNeutral : Neutral → Neutral → Bool
  | .nVar n1 i1, .nVar n2 i2 => n1 == n2 && i1 == i2
  | .nApp f1 a1, .nApp f2 a2 => f1.convNeutral f2 && a1.conv a2
  | .nPathApp p1 d1, .nPathApp p2 d2 => p1.convNeutral p2 && d1 == d2
  | _, _ => false
end

/-- kan.rs `dim_to_env`: convert the target dimension to a dimension
environment for face checking. -/
def dimToEnv : Dim → List (Nat × Bool)
  | .zero => [(0, false)]
  | .one => [(0, true)]
  | .var v => [(v, false)]

/-- kan.rs `face_satisfied`: whether a face formula holds under a
dimension assignment (first matching entry wins for `Eq`). -/
def faceSatisfied : Face → List (Nat × Bool) → Bool
  | .eq v b, dims =>
      match dims.find? (fun p => p.1 == v) with
      | some p => p.2 == b
      | none => false
  | .and f1 f2, dims => faceSatisfied f1 dims && faceSatisfied f2 dims
  | .tr, _ => true

/-- kan.rs: the placeholder neutral spine `comp`/`coe` build when the base
is not already neutral. -/
def baseNeutral (base : Value) (nm : Name) : Neutral :=
  match base with
  | .vNeutral _ n => n
  | _ => .nVar nm 0

/-- kan.rs `comp`: Kan composition. -/
def comp (ty base : Value) (faces : List (Face × Value)) (targetDim : Dim) :
    Value :=
  if faces.isEmpty && targetDim == Dim.zero then base
  else
    let targetDims := dimToEnv targetDim
    match faces.find? (fun fv => faceSatisfied fv.1 targetDims) with
    | some fv => fv.2
    | none =>
      match ty with
      | .vPi _ _ _ _ =>
          .vNeutral ty (.nComp ty (baseNeutral base "comp_base"))
      | .vPath _ _ _ =>
          .vNeutral ty (.nComp ty (baseNeutral base "path_base"))
      | .vType _ => base
      | _ => .vNeutral ty (.nComp ty (baseNeutral base "comp_base"))

/-- kan.rs `is_constant_family`. -/
def isConstantFamily : Value → Bool
  | .vType _ => true
  | .vLam _ _ _ => false
  | _ => true

/-- kan.rs `coe`: coercion along a type family. -/
def coe (tyFamily : Value) (dfrom dto : Dim) (base : Value) : Value :=
  if dfrom == dto then base
  else if isConstantFamily tyFamily then base
  else
    match tyFamily with
    | .vType _ => base
    | .vPi _ _ _ _ =>
        .vNeutral tyFamily
          (.nCoe tyFamily dfrom dto (baseNeutral base "coe_base"))
    | .vPath _ _ _ =>
        .vNeutral tyFamily
          (.nCoe tyFamily dfrom dto (baseNeutral base "path_coe_base"))
    | _ =>
        .vNeutral tyFamily
          (.nCoe tyFamily dfrom dto (baseNeutral base "coe_base"))

/-- kan.rs `hcomp`: homogeneous composition, composition to dimension 1. -/
def hcomp (ty base : Value) (faces : List (Face × Value)) : Value :=
  comp ty base faces Dim.one

/-- Head test used to state what `comp` returns at a Pi type. -/
def Value.isVLam : Value → Bool
  | .vLam _ _ _ => true
  | _ => false

/-- A concrete Pi-type value: `(x : Type 0) → Type 0` with an empty
closure environment. -/
def tyPiC : Value := .vPi "x" (.vType 0) [] (.type 0)

end ProveIt

namespace ProveIt

/-- C7: `face_satisfied` semantics: `True` holds under every assignment;
`Eq(v,b)` holds iff the environment's first entry for `v` carries `b`;
`And` is the conjunction, hence commutative and associative with respect
to satisfaction. -/
theorem c7_face_satisfaction :
    (∀ dims : List (Nat × Bool), faceSatisfied Face.tr dims = true) ∧
    (∀ (dims : List (Nat × Bool)) (v : Nat) (b : Bool),
      faceSatisfied (Face.eq v b) dims = true ↔
        (dims.find? (fun p => p.1 == v)).map Prod.snd = some b) ∧
    (∀ (dims : List (Nat × Bool)) (f1 f2 : Face),
      faceSatisfied (Face.and f1 f2) dims =
        (faceSatisfied f1 dims && faceSatisfied f2 dims)) ∧
    (∀ (dims : List (Nat × Bool)) (f1 f2 : Face),
      faceSatisfied (Face.and f1 f2) dims =
        faceSatisfied (Face.and f2 f1) dims) ∧
    (∀ (dims : List (Nat × Bool)) (f1 f2 f3 : Face),
      faceSatisfied (Face.and (Face.and f1 f2) f3) dims =
        faceSatisfied (Face.and f1 (Face.and f2 f3)) dims) := by
  refine ⟨fun _ => rfl, fun dims v b => ?_, fun _ _ _ => rfl,
    fun dims f1 f2 => ?_, fun dims f1 f2 f3 => ?_⟩
  · simp only [faceSatisfied]
    cases h : dims.find? (fun p => p.1 == v) with
    | none => simp
    | some p => simp [beq_iff_eq]
  · simp only [faceSatisfied]
    exact Bool.and_comm _ _
  · simp only [faceSatisfied]
    exact Bool.and_assoc _ _ _

end ProveIt

namespace ProveIt

/-- C5 (counterexample): at the Pi-type value `(x : Type 0) → Type 0`,
with base `Type 0`, no faces and target dimension 1, `comp` returns a
neutral `NComp` spine (with the placeholder variable `comp_base`), not a
`VLam`; the claim that the VPi branch returns a `VLam` whose body
composes in the codomain is false of the code. -/
theorem c5_comp_vpi_counterexample :
    comp tyPiC (.vType 0) [] Dim.one =
      .vNeutral tyPiC (.nComp tyPiC (.nVar "comp_base" 0)) ∧
    (comp tyPiC (.vType 0) [] Dim.one).isVLam = false := ⟨rfl, rfl⟩

/-- C5 (amended): when `comp` takes neither the identity case (empty
faces with target 0) nor a satisfied face, and the type argument is a
`VPi` value, it returns the neutral value
`VNeutral{ty, NComp{ty, spine}}`, where the spine is the base's neutral
spine if the base is neutral and otherwise the placeholder variable
`comp_base`; in particular the result is never a `VLam`. -/
theorem c5_comp_vpi_neutral (base : Value) (faces : List (Face × Value))
    (targetDim : Dim) (nm : Name) (dom : Value) (env : List Value)
    (body : Expr)
    (hne : (faces.isEmpty && targetDim == Dim.zero) = false)
    (hfind : faces.find? (fun fv => faceSatisfied fv.1 (dimToEnv targetDim))
      = none) :
    comp (.vPi nm dom env body) base faces targetDim =
      .vNeutral (.vPi nm dom env body)
        (.nComp (.vPi nm dom env body) (baseNeutral base "comp_base")) ∧
    (comp (.vPi nm dom env body) base faces targetDim).isVLam = false := by
  have h : comp (.vPi nm dom env body) base faces targetDim =
      .vNeutral (.vPi nm dom env body)
        (.nComp (.vPi nm dom env body) (baseNeutral base "comp_base")) := by
    simp only [comp, hne, Bool.false_eq_true, if_false, hfind]
  exact ⟨h, by rw [h]; rfl⟩

/-- C5 (witness): the amended statement at the concrete input of the
counterexample. -/
theorem c5_comp_vpi_neutral_witness :
    comp (.vPi "x" (.vType 0) [] (.type 0)) (.vType 0) [] Dim.one =
      .vNeutral (.vPi "x" (.vType 0) [] (.type 0))
        (.nComp (.vPi "x" (.vType 0) [] (.type 0))
          (baseNeutral (.vType 0) "comp_base")) ∧
    (comp (.vPi "x" (.vType 0) [] (.type 0)) (.vType 0) [] Dim.one).isVLam
      = false :=
  c5_comp_vpi_neutral (.vType 0) [] Dim.one "x" (.vType 0) [] (.type 0)
    rfl rfl

/-- C6 (counterexample): `hcomp` and `comp … 1` produce the same value,
but that common value can have a head on which `conv` is not reflexive:
at the Pi type `(x : Type 0) → Type 0` with base `Type 0` and no faces,
both produce a neutral `NComp`, and `conv` rejects the pair, so the
claimed definitional equality under `conv` fails. -/
theorem c6_hcomp_conv_counterexample :
    (hcomp tyPiC (.vType 0) []).conv (comp tyPiC (.vType 0) [] Dim.one)
      = false := rfl

/-- C6 (amended): `hcomp(A, a, faces)` is the very same value as
`comp(A, a, faces, 1)` (syntactic equality of results); under `conv` the
equality holds whenever `conv` is reflexive at that value, e.g. in the
spec's S5 scenario `A = VType 0`, `a = VType 0`, empty faces. -/
theorem c6_hcomp_eq_comp_at_one :
    (∀ (ty base : Value) (faces : List (Face × Value)),
      hcomp ty base faces = comp ty base faces Dim.one) ∧
    (hcomp (.vType 0) (.vType 0) []).conv
      (comp (.vType 0) (.vType 0) [] Dim.one) = true :=
  ⟨fun _ _ _ => rfl, rfl⟩

end ProveIt

namespace ProveIt

/-- Kernel error values (lib.rs `Error` plus explicit constructors for the
Rust panics of eval/apply and for fuel exhaustion of this embedding;
payloads that Rust renders into Strings via `format!` are modelled as the
data being formatted). -/
inductive Err where
  | typeMismatch (expected got : Value)
  | expectedType (got : Value)
  | expectedPi (got : Value)
  | expectedPath (got : Value)
  | unboundVariable (idx : Nat)
  | cannotInfer (e : Expr)
  | smoothnessViolation (expected got : Nat)
  | evalUnbound (idx : Nat)
  | applyNonFunction
  | applyNonPath
  | outOfFuel

/-- eval.rs `resolve_dim`. -/
def resolveDim (dim : Dim) (dimEnv : DimEnv) : Dim :=
  match dim with
  | .var v => (dimEnv.get? v).getD (Dim.var v)
  | d => d

mutual
/-- eval.rs `eval_with_dims` (with `eval e env = eval_with_dims e env []`).
Fueled; fuel is decremented on every recursive call, so any Rust run is
matched by a sufficiently large fuel. -/
def evalF : Nat → Expr → Env → DimEnv → Except Err Value
  | 0, _, _, _ => .error .outOfFuel
  | fuel+1, e, env, dimEnv =>
    match e with
    | .type l => .ok (.vType l)
    | .var _ idx =>
        match env.get? idx with
        | some v => .ok v
        | none => .error (.evalUnbound idx)
    | .pi nm dom cod => do
        let domVal ← evalF fuel dom env dimEnv
        .ok (.vPi nm domVal env cod)
    | .lam nm body => .ok (.vLam nm env body)
    | .app f a => do
        let fv ← evalF fuel f env dimEnv
        let av ← evalF fuel a env dimEnv
        applyF fuel fv av
    | .path ty l r => do
        let tv ← evalF fuel ty env dimEnv
        let lv ← evalF fuel l env dimEnv
        let rv ← evalF fuel r env dimEnv
        .ok (.vPath tv lv rv)
    | .pathLam d body => .ok (.vPathLam d env dimEnv body)
    | .pathApp p d => do
        let pv ← evalF fuel p env dimEnv
        applyPathF fuel pv (resolveDim d dimEnv)
    | .smoothPath k ty l r => do
        let tv ← evalF fuel ty env dimEnv
        let lv ← evalF fuel l env dimEnv
        let rv ← evalF fuel r env dimEnv
        .ok (.vSmoothPath k tv lv rv)
    | .comp ty base faces => do
        let tyV ← evalF fuel ty env dimEnv
        let baseV ← evalF fuel base env dimEnv
        let facesV ← evalFacesF fuel faces env dimEnv
        .ok (comp tyV baseV facesV Dim.one)
    | .coe tyFam dfrom dto base => do
        let tyFamV ← evalF fuel tyFam env dimEnv
        let baseV ← evalF fuel base env dimEnv
        .ok (coe tyFamV (resolveDim dfrom dimEnv) (resolveDim dto dimEnv)
          baseV)
    | .hcomp ty base faces => do
        let tyV ← evalF fuel ty env dimEnv
        let baseV ← evalF fuel base env dimEnv
        let facesV ← evalFacesF fuel faces env dimEnv
        .ok (hcomp tyV baseV facesV)
    | .glue base _ => evalF fuel base env dimEnv
    | .diff _ _ e1 => do
        let _ ← evalF fuel e1 env dimEnv
        .ok (.vType 0)
    | .integral _ _ _ e1 => do
        let _ ← evalF fuel e1 env dimEnv
        .ok (.vType 0)
    | .taylor _ point e1 => do
        let _ ← evalF fuel point env dimEnv
        let _ ← evalF fuel e1 env dimEnv
        .ok (.vType 0)

/-- value.rs `Value::apply`; `Closure::apply` pushes the argument onto the
captured environment and evaluates with an empty dimension environment. -/
def applyF : Nat → Value → Value → Except Err Value
  | 0, _, _ => .error .outOfFuel
  | fuel+1, .vLam _ cloEnv cloBody, arg =>
      evalF fuel cloBody (cloEnv ++ [arg]) []
  | fuel+1, .vNeutral ty n, arg => do
      let codTy ←
        match ty with
        | .vPi _ _ cloEnv cloBody => evalF fuel cloBody (cloEnv ++ [arg]) []
        | _ => .ok ty
      .ok (.vNeutral codTy (.nApp n arg))
  | _+1, _, _ => .error .applyNonFunction

/-- value.rs `Value::apply_path`.  Note `DimClosure::apply` builds the
extended dimension environment but then calls `eval(&self.body,
&self.env)`, which evaluates with an empty dimension environment; the
embedding mirrors that. -/
def applyPathF : Nat → Value → Dim → Except Err Value
  | 0, _, _ => .error .outOfFuel
  | fuel+1, .vPathLam _ cloEnv _ cloBody, _ => evalF fuel cloBody cloEnv []
  | _+1, .vNeutral ty n, d =>
      let endpointTy :=
        match ty with
        | .vPath t _ _ => t
        | _ => ty
      .ok (.vNeutral endpointTy (.nPathApp n d))
  | _+1, _, _ => .error .applyNonPath

/-- eval.rs: evaluation of the face list of `Comp`/`HComp`. -/
def evalFacesF : Nat → List (Face × Expr) → Env → DimEnv →
    Except Err (List (Face × Value))
  | 0, _, _, _ => .error .outOfFuel
  | _+1, [], _, _ => .ok []
  | fuel+1, (f, fe) :: rest, env, dimEnv => do
      let v ← evalF fuel fe env dimEnv
      let restV ← evalFacesF fuel rest env dimEnv
      .ok ((f, v) :: restV)
end

end ProveIt

namespace ProveIt

/-- check.rs `Context`: type bindings, a value environment for `eval`,
and display names. -/
structure Context where
  types : List Value
  env : Env
  names : List Name

/-- check.rs `Context::new`. -/
def Context.empty : Context := ⟨[], [], []⟩

/-- check.rs `Context::extend`: push the type and a neutral variable at
the new index onto the environment. -/
def Context.extend (ctx : Context) (nm : Name) (ty : Value) : Context :=
  let types := ctx.types ++ [ty]
  { types := types
    env := ctx.env ++ [.vNeutral ty (.nVar nm (types.length - 1))]
    names := ctx.names ++ [nm] }

/-- check.rs `Context::lookup`. -/
def Context.lookup (ctx : Context) (idx : Nat) : Except Err Value :=
  match ctx.types.get? idx with
  | some v => .ok v
  | none => .error (.unboundVariable idx)

/-- check.rs `expect_type`. -/
def expectType : Value → Except Err Level
  | .vType l => .ok l
  | v => .error (.expectedType v)

/-- check.rs `expect_pi`: domain plus the codomain closure's pieces. -/
def expectPi : Value → Except Err (Value × Env × Expr)
  | .vPi _ dom cloEnv cloBody => .ok (dom, cloEnv, cloBody)
  | v => .error (.expectedPi v)

/-- check.rs `expect_path` (also accepts `VSmoothPath`). -/
def expectPath : Value → Except Err (Value × Value × Value)
  | .vPath ty l r => .ok (ty, l, r)
  | .vSmoothPath _ ty l r => .ok (ty, l, r)
  | v => .error (.expectedPath v)

/-- check.rs `validate_face` (never fails). -/
def validateFace : Face → Except Err Unit
  | .eq _ _ => .ok ()
  | .and f1 f2 => do
      validateFace f1
      validateFace f2
  | .tr => .ok ()

/-- check.rs `apply_to_dim`: applies a `VLam` family to the placeholder
value `VType 0`, otherwise returns the value unchanged. -/
def applyToDimF (fuel : Nat) (v : Value) (_d : Dim) : Except Err Value :=
  match v with
  | .vLam _ cloEnv cloBody => evalF fuel cloBody (cloEnv ++ [.vType 0]) []
  | _ => .ok v

mutual
/-- check.rs `infer`: bidirectional type synthesis.  Fueled; fuel is
decremented on every recursive call. -/
def inferF : Nat → Context → Expr → Except Err Value
  | 0, _, _ => .error .outOfFuel
  | fuel+1, ctx, e =>
    match e with
    | .type l => .ok (.vType (l+1))
    | .var _ idx => ctx.lookup idx
    | .pi nm dom cod => do
        let domTy ← inferF fuel ctx dom
        let domLevel ← expectType domTy
        let domVal ← evalF fuel dom ctx.env []
        let codTy ← inferF fuel (ctx.extend nm domVal) cod
        let codLevel ← expectType codTy
        .ok (.vType (max domLevel codLevel))
    | .app f a => do
        let fTy ← inferF fuel ctx f
        let pi ← expectPi fTy
        checkF fuel ctx a pi.1
        let argVal ← evalF fuel a ctx.env []
        evalF fuel pi.2.2 (pi.2.1 ++ [argVal]) []
    | .path ty l r => do
        let tyTy ← inferF fuel ctx ty
        let level ← expectType tyTy
        let aVal ← evalF fuel ty ctx.env []
        checkF fuel ctx l aVal
        checkF fuel ctx r aVal
        .ok (.vType level)
    | .smoothPath k ty l r => do
        let tyTy ← inferF fuel ctx ty
        let level ← expectType tyTy
        let aVal ← evalF fuel ty ctx.env []
        checkF fuel ctx l aVal
        checkF fuel ctx r aVal
        if k > 1000 then .error (.smoothnessViolation 1000 k)
        else .ok (.vType level)
    | .pathApp p _ => do
        let pTy ← inferF fuel ctx p
        let parts ← expectPath pTy
        .ok parts.1
    | .lam _ _ => .error (.cannotInfer e)
    | .pathLam _ _ => .error (.cannotInfer e)
    | .comp ty base faces => do
        let tyTy ← inferF fuel ctx ty
        let _ ← expectType tyTy
        let tyVal ← evalF fuel ty ctx.env []
        checkF fuel ctx base tyVal
        checkFacesF fuel ctx tyVal faces
        .ok tyVal
    | .coe tyFam dfrom dto base => do
        let _ ← inferF fuel ctx tyFam
        let tyFamVal ← evalF fuel tyFam ctx.env []
        let fromTy ← applyToDimF fuel tyFamVal dfrom
        checkF fuel ctx base fromTy
        applyToDimF fuel tyFamVal dto
    | .hcomp ty base faces => do
        let tyTy ← inferF fuel ctx ty
        let _ ← expectType tyTy
        let tyVal ← evalF fuel ty ctx.env []
        checkF fuel ctx base tyVal
        checkFacesF fuel ctx tyVal faces
        .ok tyVal
    | _ => .error (.cannotInfer e)

/-- check.rs `check`: special rules for `Lambda` against `VPi` and
`PathLam` against `VPath`; otherwise falls back to inference followed by
the conversion test `conv` (note: failure yields `TypeMismatch` even when
expected and inferred are the same value, since `conv` is not
reflexive). -/
def checkF : Nat → Context → Expr → Value → Except Err Unit
  | 0, _, _, _ => .error .outOfFuel
  | fuel+1, ctx, e, expectedTy =>
    match e, expectedTy with
    | .lam nm body, .vPi _ dom cloEnv cloBody => do
        let codomain ← evalF fuel cloBody
          (cloEnv ++ [.vNeutral dom (.nVar nm ctx.types.length)]) []
        checkF fuel (ctx.extend nm dom) body codomain
    | .pathLam _ body, .vPath ty _ _ => checkF fuel ctx body ty
    | _, _ => do
        let inferredTy ← inferF fuel ctx e
        if inferredTy.conv expectedTy then .ok ()
        else .error (.typeMismatch expectedTy inferredTy)

/-- check.rs: the loop checking each face expression of `Comp`/`HComp`
against the shared type. -/
def checkFacesF : Nat → Context → Value → List (Face × Expr) →
    Except Err Unit
  | 0, _, _, _ => .error .outOfFuel
  | _+1, _, _, [] => .ok ()
  | fuel+1, ctx, tyVal, (f, fe) :: rest => do
      validateFace f
      checkF fuel ctx fe tyVal
      checkFacesF fuel ctx tyVal rest
end

end ProveIt

namespace ProveIt

/-- A context binding `x` to a smooth-path type value (as produced e.g.
by `Goal::to_context` from a hypothesis `x : SmoothPath^0 …`). -/
def ctxSP : Context :=
  Context.empty.extend "x" (.vSmoothPath 0 (.vType 0) (.vType 0) (.vType 0))

/-- C4 (counterexample): in a context whose sole hypothesis has a
`VSmoothPath` type, `infer` of that variable succeeds, yet `check` of the
same variable against the very type `infer` returned fails with
`TypeMismatch` (expected and got are the same value), because `conv` is
not reflexive on `VSmoothPath`. -/
theorem c4_not_preserved :
    inferF 1 ctxSP (.var "x" 0) =
      .ok (.vSmoothPath 0 (.vType 0) (.vType 0) (.vType 0)) ∧
    checkF 2 ctxSP (.var "x" 0)
      (.vSmoothPath 0 (.vType 0) (.vType 0) (.vType 0)) =
      .error (.typeMismatch
        (.vSmoothPath 0 (.vType 0) (.vType 0) (.vType 0))
        (.vSmoothPath 0 (.vType 0) (.vType 0) (.vType 0))) := ⟨rfl, rfl⟩

/-- C4 (amended): if `infer(Γ, e)` succeeds with `T` and additionally
`conv(T, T)` accepts, then `check(Γ, e, T)` succeeds (at one more unit of
fuel, since `check`'s fallback re-runs `infer`).  The extra `conv(T, T)`
hypothesis is necessary: `conv` is not reflexive on `VLam`, `VPathLam`,
`VSmoothPath` and `NComp`/`NCoe` neutrals. -/
theorem c4_check_after_infer (fuel : Nat) (ctx : Context) (e : Expr)
    (T : Value) (h : inferF fuel ctx e = .ok T)
    (hconv : T.conv T = true) :
    checkF (fuel+1) ctx e T = .ok () := by
  match fuel with
  | 0 => exact absurd h (by simp [inferF])
  | fuel+1 =>
    cases e with
    | lam nm body => simp [inferF] at h
    | pathLam d body => simp [inferF] at h
    | type l => cases T <;> simp_all [checkF, Bind.bind, Except.bind]
    | var nm idx => cases T <;> simp_all [checkF, Bind.bind, Except.bind]
    | pi nm dom cod => cases T <;> simp_all [checkF, Bind.bind, Except.bind]
    | app f a => cases T <;> simp_all [checkF, Bind.bind, Except.bind]
    | path ty l r => cases T <;> simp_all [checkF, Bind.bind, Except.bind]
    | pathApp p d => cases T <;> simp_all [checkF, Bind.bind, Except.bind]
    | smoothPath k ty l r => cases T <;> simp_all [checkF, Bind.bind, Except.bind]
    | comp ty base faces => cases T <;> simp_all [checkF, Bind.bind, Except.bind]
    | coe tyFam dfrom dto base => cases T <;> simp_all [checkF, Bind.bind, Except.bind]
    | hcomp ty base faces => cases T <;> simp_all [checkF, Bind.bind, Except.bind]
    | glue base eqs => cases T <;> simp_all [checkF, Bind.bind, Except.bind]
    | diff o d e1 => cases T <;> simp_all [checkF, Bind.bind, Except.bind]
    | integral d f2 t e1 => cases T <;> simp_all [checkF, Bind.bind, Except.bind]
    | taylor o p e1 => cases T <;> simp_all [checkF, Bind.bind, Except.bind]

/-- A context binding `A` to `Type 0`. -/
def ctxA : Context := Context.empty.extend "A" (.vType 0)

/-- C4 (witness): the amended statement at the variable `A : Type 0`;
here `conv` is reflexive and `check` indeed succeeds after `infer`. -/
theorem c4_check_after_infer_witness :
    Value.conv (.vType 0) (.vType 0) = true ∧
    checkF 2 ctxA (.var "A" 0) (.vType 0) = .ok () :=
  ⟨rfl, c4_check_after_infer 1 ctxA (.var "A" 0) (.vType 0) rfl rfl⟩

end ProveIt

namespace ProveIt

/-- C8: for a `SmoothPath{order k, ty A, left l, right r}` whose
components type-check (`A` infers to `Type lvl`, and `l`, `r` check
against the evaluation of `A`), `infer` returns `Type lvl` when
`k ≤ 1000` and fails with `SmoothnessViolation{expected 1000, got k}`
exactly when `k > 1000`. -/
theorem c8_smoothpath_order (fuel : Nat) (ctx : Context) (k : Nat)
    (A l r : Expr) (lvl : Level) (aVal : Value)
    (hA : inferF fuel ctx A = .ok (.vType lvl))
    (hEval : evalF fuel A ctx.env [] = .ok aVal)
    (hl : checkF fuel ctx l aVal = .ok ())
    (hr : checkF fuel ctx r aVal = .ok ()) :
    (k ≤ 1000 →
      inferF (fuel+1) ctx (.smoothPath k A l r) = .ok (.vType lvl)) ∧
    (k > 1000 →
      inferF (fuel+1) ctx (.smoothPath k A l r) =
        .error (.smoothnessViolation 1000 k)) := by
  constructor <;> intro hk <;>
    simp [inferF, hA, hEval, hl, hr, expectType, Bind.bind, Except.bind,
      hk, Nat.not_lt.mpr, Nat.lt_irrefl]

/-- The two-binding context `A : Type 0`, `a : A` (the second type is the
neutral value of the variable `A`). -/
def ctxAa : Context :=
  (Context.empty.extend "A" (.vType 0)).extend "a"
    (.vNeutral (.vType 0) (.nVar "A" 0))

/-- C8 (witness): in the context `A : Type 0, a : A`, the smooth path
`SmoothPath^0 A a a` infers to `Type 0`, and `SmoothPath^1001 A a a`
fails with `SmoothnessViolation{1000, 1001}`. -/
theorem c8_smoothpath_order_witness :
    inferF 4 ctxAa (.smoothPath 0 (.var "A" 0) (.var "a" 1) (.var "a" 1)) =
      .ok (.vType 0) ∧
    inferF 4 ctxAa
        (.smoothPath 1001 (.var "A" 0) (.var "a" 1) (.var "a" 1)) =
      .error (.smoothnessViolation 1000 1001) :=
  ⟨(c8_smoothpath_order 3 ctxAa 0 (.var "A" 0) (.var "a" 1) (.var "a" 1)
      0 (.vNeutral (.vType 0) (.nVar "A" 0)) rfl rfl rfl rfl).1
      (by omega),
   (c8_smoothpath_order 3 ctxAa 1001 (.var "A" 0) (.var "a" 1) (.var "a" 1)
      0 (.vNeutral (.vType 0) (.nVar "A" 0)) rfl rfl rfl rfl).2
      (by omega)⟩

end ProveIt

namespace ProveIt

/-- point.rs `Point`: stable id, label, and proposition.  The rendering
payload (position, color, accessibility metadata) is omitted: it is
floating-point display data never read or written by the graph
operations embedded here. -/
structure Point where
  id : Nat
  label : String
  proposition : Expr

/-- line.rs `Line`: id, endpoints, proof term, label.  The cached type,
style, and accessibility fields are omitted: they are never read or
written by the graph operations embedded here.  Rust's `from`/`to` are
`fromId`/`toId` (`from` is a Lean keyword). -/
structure Line where
  id : Nat
  fromId : Nat
  toId : Nat
  proof_term : Expr
  label : String

/-- line.rs `ProofPath` (`end` is a Lean keyword, hence `endId`). -/
structure ProofPath where
  lines : List Nat
  start : Nat
  endId : Nat
  composite_proof : Option Expr

/-- line.rs `ProofPath::new`. -/
def ProofPath.new (start endId : Nat) : ProofPath :=
  ⟨[], start, endId, none⟩

/-- line.rs `ProofPath::add_line`. -/
def ProofPath.addLine (p : ProofPath) (lineId : Nat) : ProofPath :=
  { p with lines := p.lines ++ [lineId] }

/-- geometry lib.rs error values (`InvalidConstruction`'s formatted
message is modelled as the missing point id it names), plus fuel
exhaustion of this embedding's DFS. -/
inductive GErr where
  | invalidConstruction (missingPoint : Nat)
  | dependencyCycle
  | fuelOut
  deriving Repr, DecidableEq

/-- HashMap insertion, modelled pointwise. -/
def mapInsert {α : Type} (m : Nat → Option α) (k : Nat) (v : α) :
    Nat → Option α :=
  fun k2 => if k2 = k then some v else m k2

/-- construction.rs `ConstructionGraph`. -/
structure CGraph where
  points : Nat → Option Point
  lines : Nat → Option Line
  outgoing : Nat → Option (List Nat)
  incoming : Nat → Option (List Nat)
  nextPointId : Nat
  nextLineId : Nat

/-- construction.rs `ConstructionGraph::new`. -/
def CGraph.empty : CGraph :=
  ⟨fun _ => none, fun _ => none, fun _ => none, fun _ => none, 0, 0⟩

/-- construction.rs `add_point`: allocate a fresh id, insert the point
and empty incidence entries. -/
def CGraph.addPoint (g : CGraph) (p : Point) : Nat × CGraph :=
  let id := g.nextPointId
  (id,
    { g with
      nextPointId := id + 1
      points := mapInsert g.points id { p with id := id }
      outgoing := mapInsert g.outgoing id []
      incoming := mapInsert g.incoming id [] })

mutual
/-- construction.rs `has_cycle_dfs`: iterative DFS with visited and
recursion-stack sets (threaded explicitly; `none` is fuel exhaustion of
the embedding, which the Rust recursion cannot hit).  Note both lookups
of the candidate new line go through `self.lines`, which does not yet
contain it during `add_line`'s check. -/
def CGraph.hasCycleDfs (fuel : Nat) (g : CGraph) (point : Nat)
    (visited recStack : List Nat) (newLine : Option Nat) :
    Option (Bool × List Nat × List Nat) :=
  match fuel with
  | 0 => none
  | fuel+1 =>
    if recStack.contains point then some (true, visited, recStack)
    else if visited.contains point then some (false, visited, recStack)
    else
      let visited1 := point :: visited
      let recStack1 := point :: recStack
      match
        (match g.outgoing point with
         | some edges => g.dfsEdges fuel edges visited1 recStack1 newLine
         | none => some (false, visited1, recStack1)) with
      | none => none
      | some (true, v2, r2) => some (true, v2, r2)
      | some (false, v2, r2) =>
        match
          (match newLine with
           | some newId =>
             match g.lines newId with
             | some line =>
                 if line.fromId = point then
                   g.hasCycleDfs fuel line.toId v2 r2 newLine
                 else some (false, v2, r2)
             | none => some (false, v2, r2)
           | none => some (false, v2, r2)) with
        | none => none
        | some (true, v3, r3) => some (true, v3, r3)
        | some (false, v3, r3) => some (false, v3, r3.erase point)

/-- construction.rs: the `for` loop over outgoing edges inside
`has_cycle_dfs`, returning early on the first cycle found. -/
def CGraph.dfsEdges (fuel : Nat) (g : CGraph) (edges : List Nat)
    (visited recStack : List Nat) (newLine : Option Nat) :
    Option (Bool × List Nat × List Nat) :=
  match fuel with
  | 0 => none
  | fuel+1 =>
    match edges with
    | [] => some (false, visited, recStack)
    | lid :: rest =>
      match g.lines lid with
      | some line =>
        match g.hasCycleDfs fuel line.toId visited recStack newLine with
        | none => none
        | some (true, v2, r2) => some (true, v2, r2)
        | some (false, v2, r2) => g.dfsEdges fuel rest v2 r2 newLine
      | none => g.dfsEdges fuel rest visited recStack newLine
end

/-- construction.rs `has_cycle_after_adding`: DFS from the new line's
target with fresh visited/recursion sets. -/
def CGraph.hasCycleAfterAdding (fuel : Nat) (g : CGraph) (lineId : Nat)
    (line : Line) : Option Bool :=
  (g.hasCycleDfs fuel line.toId [] [] (some lineId)).map (·.1)

/-- construction.rs `add_line`: endpoint checks, trial incidence insert,
cycle check, rollback of the incidence lists on a detected cycle. -/
def CGraph.addLine (fuel : Nat) (g : CGraph) (line : Line) :
    Except GErr Nat × CGraph :=
  if (g.points line.fromId).isNone then
    (.error (.invalidConstruction line.fromId), g)
  else if (g.points line.toId).isNone then
    (.error (.invalidConstruction line.toId), g)
  else
    let id := g.nextLineId
    let line1 := { line with id := id }
    let g1 :=
      { g with
        nextLineId := id + 1
        outgoing := mapInsert g.outgoing line.fromId
          (((g.outgoing line.fromId).getD []) ++ [id])
        incoming := mapInsert g.incoming line.toId
          (((g.incoming line.toId).getD []) ++ [id]) }
    match g1.hasCycleAfterAdding fuel id line1 with
    | none => (.error .fuelOut, g1)
    | some true =>
        let g2 :=
          { g1 with
            outgoing := mapInsert g1.outgoing line.fromId
              (((g1.outgoing line.fromId).getD []).dropLast)
            incoming := mapInsert g1.incoming line.toId
              (((g1.incoming line.toId).getD []).dropLast) }
        (.error .dependencyCycle, g2)
    | some false => (.ok id, { g1 with lines := mapInsert g1.lines id line1 })

/-- construction.rs `find_path`: BFS neighbor exploration for one
dequeued node (updates queue, visited set, parent map in edge order). -/
def CGraph.exploreEdges (g : CGraph) (current : Nat) (edges : List Nat)
    (queue visited : List Nat) (parent : Nat → Option (Nat × Nat)) :
    List Nat × List Nat × (Nat → Option (Nat × Nat)) :=
  match edges with
  | [] => (queue, visited, parent)
  | lid :: rest =>
    match g.lines lid with
    | some line =>
        if visited.contains line.toId then
          g.exploreEdges current rest queue visited parent
        else
          g.exploreEdges current rest (queue ++ [line.toId])
            (line.toId :: visited) (mapInsert parent line.toId (current, lid))
    | none => g.exploreEdges current rest queue visited parent

/-- construction.rs `find_path`: path reconstruction walk along the
parent map from the target back to the source (the collected line ids
are reversed by the caller; fuel exhaustion stops like the Rust
`break`). -/
def walkParent (fuel : Nat) (fromId : Nat)
    (parent : Nat → Option (Nat × Nat)) (node : Nat) (acc : List Nat) :
    List Nat :=
  match fuel with
  | 0 => acc
  | fuel+1 =>
    if node = fromId then acc
    else
      match parent node with
      | some pl => walkParent fuel fromId parent pl.1 (acc ++ [pl.2])
      | none => acc

/-- construction.rs `find_path`: the BFS work-list loop (`none` covers
both exhaustion of the queue and fuel exhaustion of the embedding). -/
def CGraph.bfsLoop (fuel : Nat) (g : CGraph) (fromId toId : Nat)
    (queue visited : List Nat) (parent : Nat → Option (Nat × Nat)) :
    Option ProofPath :=
  match fuel with
  | 0 => none
  | fuel+1 =>
    match queue with
    | [] => none
    | current :: queueRest =>
      if current = toId then
        some { ProofPath.new fromId toId with
          lines := (walkParent fuel fromId parent toId []).reverse }
      else
        match g.outgoing current with
        | some edges =>
            let s := g.exploreEdges current edges queueRest visited parent
            g.bfsLoop fuel fromId toId s.1 s.2.1 s.2.2
        | none => g.bfsLoop fuel fromId toId queueRest visited parent

/-- construction.rs `find_path`: immediate success on `from == to`
(before any existence check), otherwise BFS from `from`. -/
def CGraph.findPath (fuel : Nat) (g : CGraph) (fromId toId : Nat) :
    Option ProofPath :=
  if fromId = toId then some (ProofPath.new fromId toId)
  else g.bfsLoop fuel fromId toId [fromId] [fromId] (fun _ => none)

end ProveIt

namespace ProveIt

/-- The S2 scenario's points and lines (propositions and proof terms as
in the repository's own `test_cycle_detection`). -/
def pA : Point := ⟨0, "A", .type 0⟩

/-- Point B of the S2 scenario. -/
def pB : Point := ⟨0, "B", .type 0⟩

/-- The line A→B of the S2 scenario. -/
def lineAB : Line := ⟨0, 0, 1, .var "f" 0, "AB"⟩

/-- The attempted line B→A of the S2 scenario. -/
def lineBA : Line := ⟨0, 1, 0, .var "g" 0, "BA"⟩

/-- A second copy of A→B, attempted once the cycle is in place. -/
def lineAB2 : Line := ⟨0, 0, 1, .var "h" 0, "AB2"⟩

/-- The graph with points A (id 0) and B (id 1). -/
def gAB : CGraph := ((CGraph.empty.addPoint pA).2.addPoint pB).2

/-- The graph after a successful `add_line A→B`. -/
def gABline : CGraph := (gAB.addLine 10 lineAB).2

/-- The graph after the (buggy) acceptance of `add_line B→A`. -/
def gCycle : CGraph := (gABline.addLine 10 lineBA).2

/-- C1: the S2 scenario does NOT behave as claimed: after points A, B
and line A→B, the attempted `add_line B→A` is accepted (`Ok(1)`), and
the graph then holds both A→B and B→A — a directed cycle.  The cycle
check cannot see the candidate line because both of its lookups go
through the `lines` map, which receives the line only after the check;
this contradicts the repository's own `test_cycle_detection`. -/
theorem c1_cycle_not_refused :
    (gAB.addLine 10 lineAB).1 = .ok 0 ∧
    (gABline.addLine 10 lineBA).1 = .ok 1 ∧
    gCycle.lines 0 = some ⟨0, 0, 1, .var "f" 0, "AB"⟩ ∧
    gCycle.lines 1 = some ⟨1, 1, 0, .var "g" 0, "BA"⟩ :=
  ⟨rfl, rfl, rfl, rfl⟩

/-- C2 (counterexample): once the cycle A→B→A is present (reachable via
the C1 bug), a further `add_line A→B` is refused with `DependencyCycle`,
but the post-state is not bit-exact equal to the pre-state: the rollback
restores the incidence lists yet leaves `next_line_id` incremented from
2 to 3. -/
theorem c2_rollback_counterexample :
    (gCycle.addLine 20 lineAB2).1 = .error .dependencyCycle ∧
    gCycle.nextLineId = 2 ∧
    (gCycle.addLine 20 lineAB2).2.nextLineId = 3 :=
  ⟨rfl, rfl, rfl⟩

/-- C2 (amended): a rejected `add_line` leaves points, lines, both
incidence maps and `next_point_id` exactly as before (given the graph
has incidence entries for the line's endpoints, as every graph built by
`add_point` does); an `InvalidConstruction` rejection leaves the whole
graph untouched, while a `DependencyCycle` rejection leaves
`next_line_id` incremented by one. -/
theorem c2_addline_error_rollback (fuel : Nat) (g : CGraph) (line : Line)
    (outList inList : List Nat)
    (hout : g.outgoing line.fromId = some outList)
    (hin : g.incoming line.toId = some inList) :
    (∀ m, (g.addLine fuel line).1 = .error (.invalidConstruction m) →
      (g.addLine fuel line).2 = g) ∧
    ((g.addLine fuel line).1 = .error .dependencyCycle →
      (g.addLine fuel line).2.points = g.points ∧
      (g.addLine fuel line).2.lines = g.lines ∧
      (g.addLine fuel line).2.outgoing = g.outgoing ∧
      (g.addLine fuel line).2.incoming = g.incoming ∧
      (g.addLine fuel line).2.nextPointId = g.nextPointId ∧
      (g.addLine fuel line).2.nextLineId = g.nextLineId + 1) := by
  by_cases h1 : (g.points line.fromId).isNone
  · constructor
    · intro m _
      simp [CGraph.addLine, h1]
    · intro hr
      simp [CGraph.addLine, h1] at hr
  · by_cases h2 : (g.points line.toId).isNone
    · constructor
      · intro m _
        simp [CGraph.addLine, h1, h2]
      · intro hr
        simp [CGraph.addLine, h1, h2] at hr
    · cases hcyc : CGraph.hasCycleAfterAdding fuel
          { g with
            nextLineId := g.nextLineId + 1,
            outgoing := mapInsert g.outgoing line.fromId
              ((g.outgoing line.fromId).getD [] ++ [g.nextLineId]),
            incoming := mapInsert g.incoming line.toId
              ((g.incoming line.toId).getD [] ++ [g.nextLineId]) }
          g.nextLineId { line with id := g.nextLineId } with
      | none =>
          constructor
          · intro m hr
            simp [CGraph.addLine, h1, h2, hcyc] at hr
          · intro hr
            simp [CGraph.addLine, h1, h2, hcyc] at hr
      | some b =>
        cases b with
        | false =>
            constructor
            · intro m hr
              simp [CGraph.addLine, h1, h2, hcyc] at hr
            · intro hr
              simp [CGraph.addLine, h1, h2, hcyc] at hr
        | true =>
            refine ⟨fun m hr => ?_, fun _ => ?_⟩
            · simp [CGraph.addLine, h1, h2, hcyc] at hr
            · refine ⟨by simp [CGraph.addLine, h1, h2, hcyc],
                by simp [CGraph.addLine, h1, h2, hcyc], ?_, ?_,
                by simp [CGraph.addLine, h1, h2, hcyc],
                by simp [CGraph.addLine, h1, h2, hcyc]⟩
              · funext k
                by_cases hk : k = line.fromId
                · subst hk
                  simp only [CGraph.addLine, h1, h2, Bool.false_eq_true,
                    if_false, hcyc]
                  simp [mapInsert, hout, List.dropLast_concat]
                · simp only [CGraph.addLine, h1, h2, Bool.false_eq_true,
                    if_false, hcyc]
                  simp [mapInsert, hk]
              · funext k
                by_cases hk : k = line.toId
                · subst hk
                  simp only [CGraph.addLine, h1, h2, Bool.false_eq_true,
                    if_false, hcyc]
                  simp [mapInsert, hin, List.dropLast_concat]
                · simp only [CGraph.addLine, h1, h2, Bool.false_eq_true,
                    if_false, hcyc]
                  simp [mapInsert, hk]

/-- C2 (witness): the amended statement at the counterexample's concrete
input: the `DependencyCycle` rejection of a duplicate A→B on the cyclic
graph preserves lines and incidence and increments `next_line_id`. -/
theorem c2_addline_error_rollback_witness :
    (gCycle.addLine 20 lineAB2).2.lines = gCycle.lines ∧
    (gCycle.addLine 20 lineAB2).2.outgoing = gCycle.outgoing ∧
    (gCycle.addLine 20 lineAB2).2.incoming = gCycle.incoming ∧
    (gCycle.addLine 20 lineAB2).2.nextLineId = gCycle.nextLineId + 1 :=
  let h := (c2_addline_error_rollback 20 gCycle lineAB2 [0] [0]
    rfl rfl).2 rfl
  ⟨h.2.1, h.2.2.1, h.2.2.2.1, h.2.2.2.2.2⟩

/-- C9: `find_path(x, x)` immediately returns a proof path with an empty
line list, for every graph and every id `x` — even one naming no point
of the graph; no existence check is performed on that branch. -/
theorem c9_find_path_self (fuel : Nat) (g : CGraph) (x : Nat) :
    g.findPath fuel x x = some (ProofPath.new x x) ∧
    (ProofPath.new x x).lines = [] :=
  ⟨by simp [CGraph.findPath], rfl⟩

end ProveIt

namespace ProveIt

/-- goals.rs `Hypothesis`. -/
structure Hypothesis where
  name : String
  ty : Expr
  body : Option Expr

/-- goals.rs `Goal`. -/
structure Goal where
  id : Nat
  proposition : Expr
  hypotheses : List Hypothesis
  name : Option String

/-- goals.rs `Goal::new`. -/
def Goal.new (id : Nat) (proposition : Expr) : Goal :=
  ⟨id, proposition, [], none⟩

/-- goals.rs `ProofSnapshot`. -/
structure ProofSnapshot where
  goals : List Goal
  completed : List Goal

/-- proof-engine lib.rs error values (plus a marker for the Rust index
panic, unreachable while `history_pos ≤ history.len()`). -/
inductive PErr where
  | goalNotFound
  | invalidProofState (msg : String)
  | panicIndex

/-- goals.rs `ProofState`. -/
structure ProofState where
  goals : List Goal
  completed : List Goal
  history : List ProofSnapshot
  historyPos : Nat
  nextGoalId : Nat

/-- goals.rs `ProofState::new`. -/
def ProofState.new : ProofState := ⟨[], [], [], 0, 0⟩

/-- goals.rs `save_snapshot`: truncate the redo tail when the cursor is
not at the end, push a snapshot of the current state, move the cursor to
the new end. -/
def ProofState.saveSnapshot (s : ProofState) : ProofState :=
  let history :=
    if s.historyPos < s.history.length then s.history.take s.historyPos
    else s.history
  let history1 := history ++ [⟨s.goals, s.completed⟩]
  { s with history := history1, historyPos := history1.length }

/-- goals.rs `add_goal`: snapshot, then append the goal. -/
def ProofState.addGoal (s : ProofState) (g : Goal) : ProofState :=
  let s1 := s.saveSnapshot
  { s1 with goals := s1.goals ++ [g] }

/-- goals.rs `ProofState::with_goal`. -/
def ProofState.withGoal (proposition : Expr) : ProofState :=
  let s := ProofState.new.addGoal (Goal.new 0 proposition)
  { s with nextGoalId := 1 }

/-- goals.rs `complete_current_goal`: snapshot first (even on failure),
then pop the front goal onto the completed list, or fail with
`GoalNotFound` when no goal is open. -/
def ProofState.completeCurrentGoal (s : ProofState) :
    Except PErr Goal × ProofState :=
  let s1 := s.saveSnapshot
  match s1.goals with
  | [] => (.error .goalNotFound, s1)
  | g :: rest =>
      (.ok g, { s1 with goals := rest, completed := s1.completed ++ [g] })

/-- goals.rs `replace_goal`: snapshot, drop the front goal, push the
subgoals at the front in order. -/
def ProofState.replaceGoal (s : ProofState) (subgoals : List Goal) :
    ProofState :=
  let s1 := s.saveSnapshot
  { s1 with goals := subgoals ++ s1.goals.tail }

/-- goals.rs `undo`: move the cursor back one step and reinstate that
snapshot. -/
def ProofState.undo (s : ProofState) : Except PErr Unit × ProofState :=
  if s.historyPos > 0 then
    match s.history.get? (s.historyPos - 1) with
    | some snap =>
        (.ok (),
          { s with
            historyPos := s.historyPos - 1
            goals := snap.goals
            completed := snap.completed })
    | none => (.error .panicIndex, s)
  else (.error (.invalidProofState "No history to undo"), s)

/-- goals.rs `redo`: reinstate the snapshot at the cursor, then advance
the cursor. -/
def ProofState.redo (s : ProofState) : Except PErr Unit × ProofState :=
  if s.historyPos < s.history.length then
    match s.history.get? s.historyPos with
    | some snap =>
        (.ok (),
          { s with
            goals := snap.goals
            completed := snap.completed
            historyPos := s.historyPos + 1 })
    | none => (.error .panicIndex, s)
  else (.error (.invalidProofState "No history to redo"), s)

/-- goals.rs `can_undo`. -/
def ProofState.canUndo (s : ProofState) : Bool :=
  decide (s.historyPos > 0)

/-- goals.rs `can_redo`. -/
def ProofState.canRedo (s : ProofState) : Bool :=
  decide (s.historyPos < s.history.length)

/-- goals.rs `num_goals`. -/
def ProofState.numGoals (s : ProofState) : Nat := s.goals.length

/-- The state of the repository's `test_undo_redo`: one initial goal. -/
def sTrace0 : ProofState := ProofState.withGoal (.type 0)

/-- The same state after `add_goal(Goal::new(GoalId(1), Type 1))`. -/
def sTrace1 : ProofState := sTrace0.addGoal (Goal.new 1 (.type 1))

/-- C3: on the repository's own `test_undo_redo` trace (`with_goal`,
`add_goal`, `undo`, `redo`), `undo` correctly restores the pre-`add_goal`
state (one open goal), but `redo` then reinstates that same pre-state
snapshot instead of the post-state: the goal count stays 1 where the
claim (and the test's final assertion) requires 2.  The post-state of a
mutation is never snapshotted, so `redo` cannot reproduce it. -/
theorem c3_redo_restores_prestate :
    sTrace1.numGoals = 2 ∧
    sTrace1.undo.1 = .ok () ∧
    sTrace1.undo.2.goals = [Goal.new 0 (.type 0)] ∧
    sTrace1.undo.2.redo.1 = .ok () ∧
    sTrace1.undo.2.redo.2.goals = [Goal.new 0 (.type 0)] ∧
    sTrace1.undo.2.redo.2.numGoals = 1 :=
  ⟨rfl, rfl, rfl, rfl, rfl, rfl⟩

/-- C10: `complete_current_goal` on a state with no open goal returns
`GoalNotFound` and leaves the open and completed goal lists unchanged,
yet it still truncates the redo tail, appends a snapshot of the current
state to the history, and moves the cursor past it, so `can_redo`
becomes false even though the operation failed. -/
theorem c10_complete_on_empty (s : ProofState) (h : s.goals = []) :
    s.completeCurrentGoal.1 = .error .goalNotFound ∧
    s.completeCurrentGoal.2.goals = [] ∧
    s.completeCurrentGoal.2.completed = s.completed ∧
    s.completeCurrentGoal.2.history =
      (if s.historyPos < s.history.length then s.history.take s.historyPos
       else s.history) ++ [⟨s.goals, s.completed⟩] ∧
    s.completeCurrentGoal.2.historyPos =
      s.completeCurrentGoal.2.history.length ∧
    s.completeCurrentGoal.2.canRedo = false := by
  simp [ProofState.completeCurrentGoal, ProofState.saveSnapshot, h,
    ProofState.canRedo]

/-- A goal-less state with a one-snapshot redo tail (cursor at 0). -/
def sEmptyGoals : ProofState :=
  ⟨[], [], [⟨[Goal.new 0 (.type 0)], []⟩], 0, 1⟩

/-- C10 (witness): on the concrete goal-less state with an available
redo, the failed completion still consumes the redo tail. -/
theorem c10_complete_on_empty_witness :
    sEmptyGoals.canRedo = true ∧
    sEmptyGoals.completeCurrentGoal.1 = .error .goalNotFound ∧
    sEmptyGoals.completeCurrentGoal.2.canRedo = false :=
  ⟨rfl, (c10_complete_on_empty sEmptyGoals rfl).1,
    (c10_complete_on_empty sEmptyGoals rfl).2.2.2.2.2⟩

end ProveIt
